import Mathlib

/-!
Verification of the toroidal Game-of-Life engine in
`src/moz-tutorial/hello-wasm/src/lib.rs` (`Universe`, `Coord`, `Neighbors`).
The Rust code is shallowly embedded: `usize` values become `Nat` (all the
arithmetic the code performs on them — `+`, `*`, `/`, `%`, and the guarded
`- 1` on positive dimensions — agrees with `Nat` arithmetic), fallible
vector indexing becomes `Option`, and the `console_log` side effects become
an extra returned value where a claim depends on the logged number.
-/

/-- Cell state, from `enum Cell` (lib.rs lines 9-16).  The Rust enum is
`repr(u32)` with `Dead = 0xFF_00_00_00` and `Live = 0xFF_00_00_FF`; the
numeric representation is modelled separately by `Cell.value`. -/
inductive Cell where
  | Dead : Cell
  | Live : Cell
deriving DecidableEq

/-- The `repr(u32)` discriminant of each `Cell` (lib.rs lines 14-15). -/
def Cell.value : Cell → Nat
  | Cell.Dead => 0xFF000000
  | Cell.Live => 0xFF0000FF

/-- `struct Coord { y: usize, x: usize }` (lib.rs lines 25-29). -/
structure Coord where
  y : Nat
  x : Nat
deriving DecidableEq

/-- `struct Universe` (lib.rs lines 18-23): dimensions plus the dense
row-major cell vector. -/
structure Universe where
  width : Nat
  height : Nat
  content : List Cell
deriving DecidableEq

/-- One call of `<Neighbors as Iterator>::next` (lib.rs lines 52-81), as a
function of the iterator's cursor `n`: returns `none` exactly when the Rust
code returns `None` (at `n = 8`), otherwise the updated cursor and the
emitted coordinate.  The offset tables transcribe the two `match` blocks:
`yoff` is `height-1` for `n ∈ {0,1,2}`, `0` for `{3,4,5}`, `1` for `{6,7,8}`;
`xoff` is `width-1` for `n ∈ {0,3,6}`, `0` for `{1,4,7}`, `1` for `{2,5,8}`;
the next cursor is `4` when `n = 3` and `n + 1` otherwise. -/
def Neighbors.next (center : Coord) (width height n : Nat) : Option (Nat × Coord) :=
  if n = 8 then
    none
  else
    let nextN := if n = 3 then 4 else n + 1
    let yoff := if n = 0 ∨ n = 1 ∨ n = 2 then height - 1
      else if n = 3 ∨ n = 4 ∨ n = 5 then 0
      else if n = 6 ∨ n = 7 ∨ n = 8 then 1
      else 0
    let xoff := if n = 0 ∨ n = 3 ∨ n = 6 then width - 1
      else if n = 1 ∨ n = 4 ∨ n = 7 then 0
      else if n = 2 ∨ n = 5 ∨ n = 8 then 1
      else 0
    some (nextN, ⟨(center.y + yoff) % height, (center.x + xoff) % width⟩)

/-- Drains the `Neighbors` iterator into the list of coordinates it emits,
starting from cursor `n`; `fuel` bounds the recursion (the cursor strictly
increases, so fuel `9` from cursor `0` is exact). -/
def Neighbors.drain (center : Coord) (width height : Nat) : Nat → Nat → List Coord
  | 0, _ => []
  | fuel + 1, n =>
    match Neighbors.next center width height n with
    | none => []
    | some (nextN, c) => c :: Neighbors.drain center width height fuel nextN

/-- `Coord::neighbors` (lib.rs lines 31-40): the full sequence produced by a
fresh `Neighbors` iterator (cursor starting at `0`). -/
def Coord.neighbors (c : Coord) (width height : Nat) : List Coord :=
  Neighbors.drain c width height 9 0

/-- `Index<Coord> for Universe` (lib.rs lines 84-92) as a fallible lookup:
the coordinate is reduced modulo the dimensions and the flat index
`(y % height) * width + (x % width)` is read from `content`; `none` models
the Rust panic on an out-of-range vector index. -/
def Universe.getOpt (u : Universe) (c : Coord) : Option Cell :=
  let rowStart := (c.y % u.height) * u.width
  let column := c.x % u.width
  u.content.get? (rowStart + column)

/-- Total version of `Universe.getOpt` used inside `tick`, defaulting to
`Dead`; `index_in_range` below shows the default is never consulted on a
universe satisfying the length invariant with positive dimensions. -/
def Universe.get (u : Universe) (c : Coord) : Cell :=
  (u.getOpt c).getD Cell.Dead

/-- The live-cell count `self.content.iter().filter(|x| **x == Cell::Live).count()`
(lib.rs lines 163 and 193). -/
def Universe.liveCount (u : Universe) : Nat :=
  (u.content.filter (fun x => x = Cell.Live)).length

/-- The body of the `tick` loop for one coordinate (lib.rs lines 173-188):
the live count over the (buggy) `Coord::neighbors` enumeration, then the
rule `match`, with the guards in the source's order. -/
def Universe.nextCell (u : Universe) (here : Coord) : Cell :=
  let liveCnt :=
    ((here.neighbors u.width u.height).filter (fun c => u.get c = Cell.Live)).length
  match u.get here with
  | Cell.Live =>
    if liveCnt < 2 then Cell.Dead
    else if liveCnt > 3 then Cell.Dead
    else Cell.Live
  | Cell.Dead =>
    if liveCnt = 3 then Cell.Live
    else Cell.Dead

/-- `Universe::tick` (lib.rs lines 168-196).  A fresh vector is filled in
row-major order from the current state and then swapped in wholesale.  The
second component is the number the function logs: it is computed from
`self.content` on line 193, **before** the `mem::swap` on line 195, so it is
the live count of the pre-tick grid. -/
def Universe.tick (u : Universe) : Universe × Nat :=
  let content :=
    (List.range u.height).flatMap (fun y =>
      (List.range u.width).map (fun x => u.nextCell ⟨y, x⟩))
  let c := u.liveCount
  ({ u with content := content }, c)

/-- `Universe::new` (lib.rs lines 132-141): `width * height` default
(`Dead`) cells; the dimensions are stored unchecked. -/
def Universe.new (width height : Nat) : Universe :=
  { width := width, height := height,
    content := List.replicate (width * height) Cell.Dead }

/-- One round of the SplitMix64 generator on a 64-bit state held as a
`Nat` below `2 ^ 64`: returns the advanced state and the output word. -/
def splitmix64 (s : Nat) : Nat × Nat :=
  let s2 := (s + 0x9E3779B97F4A7C15) % 2 ^ 64
  let z := (Nat.xor s2 (s2 / 2 ^ 30) * 0xBF58476D1CE4E5B9) % 2 ^ 64
  let z2 := (Nat.xor z (z / 2 ^ 27) * 0x94D049BB133111EB) % 2 ^ 64
  (s2, Nat.xor z2 (z2 / 2 ^ 31))

/-- The little-endian bytes of a 64-bit word. -/
def leBytes8 (w : Nat) : List Nat :=
  (List.range 8).map (fun i => w / 2 ^ (8 * i) % 2 ^ 8)

/-- Model of the external `rand` crate used on lib.rs lines 145-148
(`SmallRng::seed_from_u64(seed)` followed by `fill_bytes` into a buffer of
`len` bytes).  The crate's contract, which is all the code relies on, is a
deterministic pseudo-random byte stream keyed solely by `seed`; it is
modelled here by a SplitMix64 stream (the generator `seed_from_u64` itself
uses), truncated to `len` bytes. -/
def smallRngFillBytes (seed len : Nat) : List Nat :=
  (((List.range ((len + 7) / 8)).foldl
      (fun acc _ =>
        let out := splitmix64 acc.1
        (out.1, acc.2 ++ leBytes8 out.2))
      (seed % 2 ^ 64, [])).2).take len

/-- The body of the `randomize` loop (lib.rs lines 150-161) at one flat
index `idx`: rewrites `content[idx]`, choosing by bit `idx % 8` of byte
`bits[idx / 8]`; both indexings are fallible, and `none` models the Rust
panic when either is out of range. -/
def Universe.randomizeWrite (bits : List Nat) (acc : Option (List Cell)) (idx : Nat) :
    Option (List Cell) := do
  let content ← acc
  let b ← bits.get? (idx / 8)
  if idx < content.length then
    some (content.set idx
      (if Nat.land b (2 ^ (idx % 8)) = 0 then Cell.Dead else Cell.Live))
  else
    none

/-- `Universe::randomize` (lib.rs lines 144-165).  The random buffer `bits`
has `width * height / 8` bytes (integer division, line 147); the loop body
`randomizeWrite` is folded over the flat indices in row-major order
(`idx = y * width + x` covers `0, 1, ..., width * height - 1` exactly as
the nested `for` loops do).  On success the result is the updated universe
paired with the number the function logs on line 164: the live count of
the updated content. -/
def Universe.randomize (u : Universe) (seed : Nat) : Option (Universe × Nat) :=
  let bits := smallRngFillBytes seed (u.width * u.height / 8)
  let filled := (List.range (u.width * u.height)).foldl
    (Universe.randomizeWrite bits) (some u.content)
  match filled with
  | none => none
  | some content =>
    let u2 := { u with content := content }
    some (u2, u2.liveCount)

/-- The glyph per cell from `Display for Universe` (lib.rs lines 204-207):
`'+'` for `Live`, a space for `Dead`. -/
def Cell.glyph : Cell → Char
  | Cell.Live => '+'
  | Cell.Dead => ' '

/-- The per-row lines built by `Display for Universe` (lib.rs lines
199-213), without their terminating newlines: one list of `width` glyphs
per `y` in `0..height`. -/
def Universe.renderLines (u : Universe) : List (List Char) :=
  (List.range u.height).map (fun y =>
    (List.range u.width).map (fun x => (u.get ⟨y, x⟩).glyph))

/-- `Universe::render` (lib.rs lines 119-121, via `Display`): each row's
glyphs followed by `'\n'` (the `write!(f, "{}\n", line)` on line 209),
concatenated. -/
def Universe.render (u : Universe) : List Char :=
  u.renderLines.flatMap (fun line => line ++ ['\n'])

/-- The little-endian bytes of one 32-bit word. -/
def leBytes4 (w : Nat) : List Nat :=
  [w % 2 ^ 8, w / 2 ^ 8 % 2 ^ 8, w / 2 ^ 16 % 2 ^ 8, w / 2 ^ 24 % 2 ^ 8]

/-- The byte buffer `Universe::render2d` hands to the canvas (lib.rs lines
104-115): the `Vec<Cell>` reinterpreted in place as raw bytes, 4 bytes per
`repr(u32)` cell.  The wasm32 target is little-endian, so each cell
contributes the little-endian bytes of its `Cell.value`. -/
def Universe.renderPixels (u : Universe) : List Nat :=
  u.content.flatMap (fun c => leBytes4 c.value)

/-- Modelled from the spec: the neighbor sequence the specification
prescribes — the eight toroidal neighbors of `c` in the order
(row-1,col-1), (row-1,col), (row-1,col+1), (row,col-1), (row,col+1),
(row+1,col-1), (row+1,col), (row+1,col+1), "each component independently
wrapped modulo height/width".  Kept separate from the source-derived
`Coord.neighbors` so the two can be compared. -/
def specNeighbors (c : Coord) (width height : Nat) : List Coord :=
  [⟨(c.y + height - 1) % height, (c.x + width - 1) % width⟩,
   ⟨(c.y + height - 1) % height, c.x % width⟩,
   ⟨(c.y + height - 1) % height, (c.x + 1) % width⟩,
   ⟨c.y % height, (c.x + width - 1) % width⟩,
   ⟨c.y % height, (c.x + 1) % width⟩,
   ⟨(c.y + 1) % height, (c.x + width - 1) % width⟩,
   ⟨(c.y + 1) % height, c.x % width⟩,
   ⟨(c.y + 1) % height, (c.x + 1) % width⟩]

/-- A 4 × 4 universe whose only live cells are the horizontally adjacent
pair (0,0) and (0,1): each live cell has exactly one live Conway neighbor,
so both must die in one generation. -/
def twoCells : Universe :=
  { width := 4, height := 4,
    content := (((Universe.new 4 4).content).set 0 Cell.Live).set 1 Cell.Live }

/-- A 5 × 5 universe holding the standard horizontal blinker: live cells at
row 2, columns 1, 2, 3 (flat indices 11, 12, 13). -/
def blinker5 : Universe :=
  { width := 5, height := 5,
    content :=
      ((((Universe.new 5 5).content).set 11 Cell.Live).set 12 Cell.Live).set 13 Cell.Live }

/-- The 1 × 1 universe whose single cell is live. -/
def oneLive : Universe :=
  { width := 1, height := 1, content := [Cell.Live] }

/-- The universes reachable through the public interface, starting from a
construction with positive dimensions and closed under `tick` and
successful `randomize`. -/
inductive Universe.Reachable : Universe → Prop where
  | init (w h : Nat) : 0 < w → 0 < h → Universe.Reachable (Universe.new w h)
  | step (u : Universe) : Universe.Reachable u → Universe.Reachable (u.tick).1
  | rand (u : Universe) (seed : Nat) (p : Universe × Nat) :
      Universe.Reachable u → u.randomize seed = some p → Universe.Reachable p.1

/-- On a universe with positive dimensions satisfying the length invariant,
the indexing of lib.rs lines 84-92 never reaches an out-of-range position:
`(y % height) * width + (x % width) < width * height` always. -/
theorem Universe.index_in_range (u : Universe) (c : Coord) (hw : 0 < u.width)
    (hh : 0 < u.height) (hlen : u.content.length = u.width * u.height) :
    (u.getOpt c).isSome := by
  have hy : c.y % u.height < u.height := Nat.mod_lt _ hh
  have hx : c.x % u.width < u.width := Nat.mod_lt _ hw
  have hidx : (c.y % u.height) * u.width + c.x % u.width < u.content.length := by
    have h1 : (c.y % u.height) * u.width + c.x % u.width <
        (c.y % u.height) * u.width + u.width := Nat.add_lt_add_left hx _
    have h2 : (c.y % u.height) * u.width + u.width = (c.y % u.height + 1) * u.width := by
      ring
    have h3 : (c.y % u.height + 1) * u.width ≤ u.height * u.width :=
      Nat.mul_le_mul_right _ (Nat.succ_le_of_lt hy)
    rw [hlen, Nat.mul_comm u.width u.height]
    omega
  rw [Universe.getOpt, List.get?_eq_get hidx]
  rfl

/-- C1: the claim says one `tick` replaces the grid by the successor in
which every cell is rekeyed by its count of live cells among its 8 toroidal
neighbors under the standard Conway table.  The code's neighbor enumeration
is wrong (it includes the center cell itself and omits the south-east
neighbor), so on the 4 × 4 grid with only the adjacent pair (0,0), (0,1)
live — where the claim's rule kills both cells (each has one live neighbor)
— the code keeps both alive: each cell counts itself, reaching the count 2
that the `Live` rule treats as stable. -/
theorem c1_tick_keeps_isolated_pair_alive :
    (twoCells.tick).1.get ⟨0, 0⟩ = Cell.Live ∧
    (twoCells.tick).1.get ⟨0, 1⟩ = Cell.Live ∧
    ((specNeighbors ⟨0, 0⟩ 4 4).filter (fun c => twoCells.get c = Cell.Live)).length = 1 := by
  decide

/-- C2: the claim says `neighbors` yields exactly the eight toroidal
neighbors of (row, col) in the order (row-1,col-1), (row-1,col),
(row-1,col+1), (row,col-1), (row,col+1), (row+1,col-1), (row+1,col),
(row+1,col+1).  It does not: for the cell (1,1) on a 5 × 5 grid the
enumeration's fifth element is the center (1,1) itself and the south-east
neighbor (2,2) is never produced — the iterator's cursor advance
`3 => 4` fails to skip position 4 (the center of its own 3 × 3 diagram)
and the `8 => return None` arm cuts off the ninth position. -/
theorem c2_neighbors_includes_center_omits_southeast :
    (Coord.mk 1 1).neighbors 5 5 =
      [⟨0, 0⟩, ⟨0, 1⟩, ⟨0, 2⟩, ⟨1, 0⟩, ⟨1, 1⟩, ⟨1, 2⟩, ⟨2, 0⟩, ⟨2, 1⟩] ∧
    (Coord.mk 1 1).neighbors 5 5 ≠ specNeighbors ⟨1, 1⟩ 5 5 ∧
    Coord.mk 1 1 ∈ (Coord.mk 1 1).neighbors 5 5 ∧
    Coord.mk 2 2 ∉ (Coord.mk 1 1).neighbors 5 5 := by
  decide

/-- C3: the claim says no failure is reachable once the engine has positive
dimensions, and in particular that `randomize(seed)` succeeds for every
positive width and height.  It does not: `randomize` sizes its random-bit
buffer as `width * height / 8` with truncating division (lib.rs line 147),
so whenever `width * height` is not a multiple of 8 the loop reads past the
buffer (`bits[idx / 8]` with `idx / 8 = width * height / 8`), a Rust panic.
On the 1 × 1 engine the buffer is empty and the very first read fails,
which the embedding reports as `none`. -/
theorem c3_randomize_reads_past_bit_buffer :
    (Universe.new 1 1).randomize 0 = none ∧
    (Universe.new 3 3).randomize 0 = none := by
  decide

/-- C4 (counterexample): the claim says constructing with width = 0 is a
construction failure — `new` rejects, rather than silently accepts,
non-positive dimensions.  But `Universe::new` performs no validation: with
width 0 and height 5 it returns a normally constructed engine with an empty
cell vector. -/
theorem c4_new_accepts_zero_width :
    Universe.new 0 5 = { width := 0, height := 5, content := [] } := by
  decide

/-- C4 (amended): `new` performs no dimension validation (the zero case is
the spec's "caller must guard" territory); for every width and height —
in particular all positive ones — it returns the grid with exactly
`width * height` cells, all Dead, and the dimensions stored unchanged. -/
theorem c4_new_builds_all_dead_grid (w h : Nat) :
    (Universe.new w h).width = w ∧ (Universe.new w h).height = h ∧
    (Universe.new w h).content.length = w * h ∧
    ∀ c ∈ (Universe.new w h).content, c = Cell.Dead := by
  refine ⟨rfl, rfl, List.length_replicate _ _, ?_⟩
  intro c hc
  exact List.eq_of_mem_replicate hc

/-- C5: the claim says the horizontal blinker (live cells (2,1), (2,2),
(2,3) on a 5 × 5 grid) becomes the vertical line (1,2), (2,2), (3,2) after
one `tick`.  It does not: because the neighbor enumeration counts the
center and misses the south-east neighbor, the code's successor keeps the
horizontal line and adds (3,2) — in particular (1,2) stays Dead (its
enumerated neighborhood sees only two of the three live cells) and (2,1)
stays Live (it counts itself). -/
theorem c5_blinker_not_restored :
    (blinker5.tick).1.content =
      (((((Universe.new 5 5).content).set 11 Cell.Live).set 12 Cell.Live).set
        13 Cell.Live).set 17 Cell.Live ∧
    (blinker5.tick).1.get ⟨1, 2⟩ = Cell.Dead ∧
    (blinker5.tick).1.get ⟨2, 1⟩ = Cell.Live := by
  decide

/-- C9: the claim says every `step` emits the live-cell count of the grid
that results from the call.  `tick` computes its logged count from
`self.content` (lib.rs line 193) *before* the `mem::swap` on line 195, so
it logs the pre-tick count: on the 1 × 1 grid whose cell is Live the call
logs 1 while the resulting grid has 0 live cells (the cell dies of
overcrowding, its 8 wrapped neighbors all being itself). -/
theorem c9_tick_logs_pre_tick_count :
    (oneLive.tick).2 = 1 ∧ ((oneLive.tick).1).liveCount = 0 := by
  decide

/-- The loop body propagates failure. -/
theorem Universe.randomizeWrite_none (bits : List Nat) (idx : Nat) :
    Universe.randomizeWrite bits none idx = none := rfl

/-- A successful loop-body write is a `List.set`, so it keeps the content
length. -/
theorem Universe.randomizeWrite_length (bits : List Nat) (c : List Cell) (idx : Nat)
    (c2 : List Cell) (h : Universe.randomizeWrite bits (some c) idx = some c2) :
    c2.length = c.length := by
  rw [Universe.randomizeWrite] at h
  cases hb : bits.get? (idx / 8) with
  | none => rw [hb] at h; simp [Option.bind] at h
  | some b =>
    rw [hb] at h
    by_cases hlt : idx < c.length
    · simp [Option.bind, hlt] at h
      rw [← h]
      exact List.length_set c idx _
    · simp [Option.bind, hlt] at h

/-- Once the fold has failed it stays failed. -/
theorem Universe.randomizeFold_none (bits : List Nat) (idxs : List Nat) :
    idxs.foldl (Universe.randomizeWrite bits) none = none := by
  induction idxs with
  | nil => rfl
  | cons i rest ih => rw [List.foldl_cons, Universe.randomizeWrite_none]; exact ih

/-- A successful `randomize` fold keeps the content length. -/
theorem Universe.randomizeFold_length (bits : List Nat) (idxs : List Nat) :
    ∀ c0 c1 : List Cell,
      idxs.foldl (Universe.randomizeWrite bits) (some c0) = some c1 →
      c1.length = c0.length := by
  induction idxs with
  | nil => intro c0 c1 h; cases h; rfl
  | cons i rest ih =>
    intro c0 c1 h
    rw [List.foldl_cons] at h
    cases hw : Universe.randomizeWrite bits (some c0) i with
    | none =>
      rw [hw, Universe.randomizeFold_none] at h
      cases h
    | some c2 =>
      rw [hw] at h
      rw [ih c2 c1 h]
      exact Universe.randomizeWrite_length bits c0 i c2 hw

/-- A successful `randomize` keeps the dimensions and the content length. -/
theorem Universe.randomize_dims (u : Universe) (seed : Nat) (p : Universe × Nat)
    (h : u.randomize seed = some p) :
    p.1.width = u.width ∧ p.1.height = u.height ∧
    p.1.content.length = u.content.length := by
  rw [Universe.randomize] at h
  cases hf : (List.range (u.width * u.height)).foldl
      (Universe.randomizeWrite (smallRngFillBytes seed (u.width * u.height / 8)))
      (some u.content) with
  | none => rw [hf] at h; cases h
  | some content =>
    rw [hf] at h
    cases h
    exact ⟨rfl, rfl, Universe.randomizeFold_length _ _ _ _ hf⟩

/-- `tick` fills the fresh vector with exactly `width * height` cells and
keeps the dimensions. -/
theorem Universe.tick_shape (u : Universe) :
    ((u.tick).1).content.length = u.width * u.height ∧
    ((u.tick).1).width = u.width ∧ ((u.tick).1).height = u.height := by
  refine ⟨?_, rfl, rfl⟩
  show ((List.range u.height).flatMap fun y =>
    (List.range u.width).map fun x => u.nextCell ⟨y, x⟩).length = u.width * u.height
  rw [List.length_flatMap]
  have hrow : (List.length ∘ fun y => (List.range u.width).map fun x => u.nextCell ⟨y, x⟩) =
      fun _ => u.width := by
    funext y
    simp
  rw [hrow, List.map_const', List.sum_replicate, List.length_range, smul_eq_mul]
  exact Nat.mul_comm _ _

/-- The pixel buffer is four bytes per cell. -/
theorem Universe.renderPixels_length (u : Universe) :
    u.renderPixels.length = 4 * u.content.length := by
  rw [Universe.renderPixels, List.length_flatMap]
  have h4 : (List.length ∘ fun c : Cell => leBytes4 c.value) = fun _ => 4 := by
    funext c
    cases c <;> rfl
  rw [h4, List.map_const', List.sum_replicate, smul_eq_mul]
  exact Nat.mul_comm _ _

/-- C6: `randomize(seed)` is deterministic in the seed alone — on two
freshly constructed engines of the same dimensions the same seed produces
the same outcome (and hence, when it succeeds, cell-for-cell equal grids).
In the embedding this is immediate because `randomize` consults nothing
but the seed and the engine, and the external RNG is a pure function of
the seed — exactly the source's situation, where `SmallRng::seed_from_u64`
derives the whole byte stream from `seed`. -/
theorem c6_randomize_deterministic (w h seed : Nat) (u1 u2 : Universe)
    (h1 : u1 = Universe.new w h) (h2 : u2 = Universe.new w h) :
    u1.randomize seed = u2.randomize seed := by
  rw [h1, h2]

/-- Witness for C6 at width 4, height 4, seed 7. -/
theorem c6_randomize_deterministic_witness :
    (Universe.new 4 4).randomize 7 = (Universe.new 4 4).randomize 7 :=
  c6_randomize_deterministic 4 4 7 (Universe.new 4 4) (Universe.new 4 4) rfl rfl

/-- C7: every universe reachable from a positive-dimension construction
through `tick` and successful `randomize` calls keeps the invariant
`content.length = width * height`, and consequently its pixel snapshot has
exactly `width * height * 4` bytes (the renders are read-only and change
no state). -/
theorem c7_size_invariant (u : Universe) (hr : Universe.Reachable u) :
    u.content.length = u.width * u.height ∧
    u.renderPixels.length = u.width * u.height * 4 := by
  have key : u.content.length = u.width * u.height := by
    induction hr with
    | init w h hw hh => exact List.length_replicate _ _
    | step v hv ih =>
      obtain ⟨hlen, hw, hh⟩ := Universe.tick_shape v
      rw [hlen, hw, hh]
    | rand v seed p hv hps ih =>
      obtain ⟨hw, hh, hlen⟩ := Universe.randomize_dims v seed p hps
      rw [hlen, hw, hh, ih]
  refine ⟨key, ?_⟩
  rw [Universe.renderPixels_length, key]
  ring

/-- Witness for C7 on the freshly constructed 2 × 3 engine. -/
theorem c7_size_invariant_witness :
    (Universe.new 2 3).content.length = (Universe.new 2 3).width * (Universe.new 2 3).height ∧
    (Universe.new 2 3).renderPixels.length =
      (Universe.new 2 3).width * (Universe.new 2 3).height * 4 :=
  c7_size_invariant (Universe.new 2 3)
    (Universe.Reachable.init 2 3 (by decide) (by decide))

/-- Reading a replicated list with the replicated element as default always
yields that element, in or out of range. -/
theorem getD_replicate_default {α : Type} (a : α) (n i : Nat) :
    (List.replicate n a).getD i a = a := by
  induction n generalizing i with
  | zero => simp [List.getD]
  | succ m ih =>
    cases i with
    | zero => simp [List.replicate_succ]
    | succ j => simp [List.replicate_succ, ih j]

/-- Every cell of a freshly constructed universe reads as Dead. -/
theorem Universe.new_get (w h : Nat) (c : Coord) :
    (Universe.new w h).get c = Cell.Dead := by
  rw [Universe.get, Universe.getOpt]
  exact getD_replicate_default Cell.Dead (w * h) _

/-- C8: the text snapshot of a freshly constructed engine with positive
dimensions has exactly `height` lines, each of exactly `width` characters
before its terminating newline, every character the Dead glyph (a space). -/
theorem c8_fresh_render_blank (w h : Nat) (hw : 0 < w) (hh : 0 < h) :
    (Universe.new w h).renderLines.length = h ∧
    (∀ line ∈ (Universe.new w h).renderLines,
      line.length = w ∧ ∀ ch ∈ line, ch = ' ') ∧
    (Universe.new w h).render =
      (List.replicate h (List.replicate w ' ' ++ ['\n'])).flatten := by
  have hlines : (Universe.new w h).renderLines = List.replicate h (List.replicate w ' ') := by
    rw [Universe.renderLines]
    have hg : ∀ y x : Nat, ((Universe.new w h).get ⟨y, x⟩).glyph = ' ' := by
      intro y x
      rw [Universe.new_get]
      rfl
    simp only [hg, List.map_const', List.length_range]
    rfl
  refine ⟨by rw [hlines]; simp, ?_, ?_⟩
  · intro line hline
    rw [hlines] at hline
    have hl : line = List.replicate w ' ' := List.eq_of_mem_replicate hline
    subst hl
    exact ⟨List.length_replicate _ _, fun ch hch => List.eq_of_mem_replicate hch⟩
  · rw [Universe.render, hlines, List.flatMap_replicate]

/-- Witness for C8 on the 2 × 3 engine. -/
theorem c8_fresh_render_blank_witness :
    (Universe.new 2 3).renderLines.length = 3 ∧
    (∀ line ∈ (Universe.new 2 3).renderLines,
      line.length = 2 ∧ ∀ ch ∈ line, ch = ' ') ∧
    (Universe.new 2 3).render =
      (List.replicate 3 (List.replicate 2 ' ' ++ ['\n'])).flatten :=
  c8_fresh_render_blank 2 3 (by decide) (by decide)

/-- C10: in the pixel snapshot each cell occupies 4 consecutive bytes in
row-major cell order, the little-endian reinterpretation of its `repr(u32)`
value: a Dead cell (0xFF_00_00_00) contributes (0, 0, 0, 255) and a Live
cell (0xFF_00_00_FF) contributes (255, 0, 0, 255). -/
theorem c10_pixel_encoding :
    leBytes4 Cell.Dead.value = [0, 0, 0, 255] ∧
    leBytes4 Cell.Live.value = [255, 0, 0, 255] ∧
    ∀ u : Universe, u.renderPixels =
      u.content.flatMap
        (fun c => if c = Cell.Live then [255, 0, 0, 255] else [0, 0, 0, 255]) := by
  refine ⟨by decide, by decide, ?_⟩
  intro u
  rw [Universe.renderPixels]
  have hfun : (fun c : Cell => leBytes4 c.value) =
      fun c : Cell => if c = Cell.Live then [255, 0, 0, 255] else [0, 0, 0, 255] := by
    funext c
    cases c <;> rfl
  rw [hfun]
